import Mathlib

/-!
Verification of the founderArms task-tracking backend.

The definitions below are a shallow embedding of the repository's core
logic: the task routes (`src/routes/tasks.js`), the analytics routes
(`src/routes/analytics.js`), the Joi validation schemas
(`src/validation/schemas.js`) and the database schema together with its
`BEFORE UPDATE` triggers and foreign-key constraints (the migration file).
The persistent store is modelled as a list of rows in insertion order;
`id` is the primary key of `tasks`, so at most one row matches an
`eq('id', ...)` filter and `.single()` is modelled with `List.find?`.
Timestamps are integer milliseconds since the Unix epoch; JS float
arithmetic on rates and averages is embedded exactly over `ℚ`.
-/

namespace FounderArms

/-- Task status values (CHECK constraint of migration `003_create_tasks_table`). -/
inductive Status
  | todo
  | in_progress
  | completed
deriving DecidableEq, Repr

/-- Task priority values (CHECK constraint of migration `003_create_tasks_table`). -/
inductive Priority
  | low
  | medium
  | high
deriving DecidableEq, Repr

/-- The stored TEXT of a priority value; Postgres orders the `priority`
column by this string when it is used as a sort key. -/
def Priority.text : Priority → String
  | .low => "low"
  | .medium => "medium"
  | .high => "high"

/-- The route-level status check of `PATCH /tasks/:id/status`:
`['todo', 'in_progress', 'completed'].includes(status)`. -/
def statusOfString (s : String) : Option Status :=
  if s = "todo" then some .todo
  else if s = "in_progress" then some .in_progress
  else if s = "completed" then some .completed
  else none

/-- A row of the `tasks` table. -/
structure Task where
  id : Nat
  title : String
  description : Option String
  status : Status
  priority : Priority
  due_date : Option Int
  completed_at : Option Int
  category_id : Option Nat
  created_by : Nat
  assigned_to : Option Nat
  created_at : Int
  updated_at : Int
deriving DecidableEq, Repr

/-- A row of the `categories` table (the fields the task routes read). -/
structure Category where
  id : Nat
  name : String
  color : String
  user_id : Nat
deriving DecidableEq, Repr

/-- The persistent store: known user ids (`auth.users`), categories and
tasks, each in insertion order. -/
structure Store where
  users : List Nat
  categories : List Category
  tasks : List Task
deriving DecidableEq, Repr

/-- An error response: HTTP status code and `error` message. -/
structure ErrResp where
  code : Nat
  error : String
deriving DecidableEq, Repr

/-- The read filter `.or('created_by.eq.<uid>,assigned_to.eq.<uid>')`. -/
def visibleTo (uid : Nat) (t : Task) : Bool :=
  decide (t.created_by = uid) || decide (t.assigned_to = some uid)

/-- Migration trigger `set_completed_at` (BEFORE UPDATE on `tasks`):
a transition into `completed` stamps `completed_at` with the current time,
an update ending with any other status clears it, and an update that keeps
the status `completed` leaves it untouched.  There is no INSERT trigger. -/
def set_completed_at (now : Int) (old new : Task) : Task :=
  if new.status = .completed ∧ old.status ≠ .completed then
    { new with completed_at := some now }
  else if new.status ≠ .completed then
    { new with completed_at := none }
  else
    new

/-- Migration trigger `update_updated_at_column` (BEFORE UPDATE). -/
def update_updated_at_column (now : Int) (new : Task) : Task :=
  { new with updated_at := now }

/-- Both BEFORE UPDATE triggers of the `tasks` table, applied to the
candidate row `new` produced by an UPDATE of row `old`. -/
def applyUpdateTriggers (now : Int) (old new : Task) : Task :=
  update_updated_at_column now (set_completed_at now old new)

/-- Replace the (unique, by primary key) task with the same id. -/
def replaceTask (s : Store) (t' : Task) : Store :=
  { s with tasks := s.tasks.map (fun t => if t.id = t'.id then t' else t) }

/-- The category-ownership check of POST / PUT:
`categories.select.eq('id', cid).eq('user_id', uid).single()` finds a row. -/
def categoryOwnedBy (s : Store) (cid uid : Nat) : Bool :=
  s.categories.any (fun c => decide (c.id = cid) && decide (c.user_id = uid))

/-- The foreign key `tasks.assigned_to REFERENCES auth.users(id)`:
a non-null value must be a known user id. -/
def fkAssignedOk (s : Store) (a : Option Nat) : Bool :=
  match a with
  | some x => s.users.contains x
  | none => true

def msgNotFound : String := "Task not found"

def msgNoPerm : String := "Task not found or insufficient permissions"

/-- `GET /tasks/:id`: select one row by id under the visibility filter;
any failure is reported as 404 "Task not found". -/
def getTask (s : Store) (uid id : Nat) : Except ErrResp Task :=
  match s.tasks.find? (fun t => decide (t.id = id) && visibleTo uid t) with
  | some t => .ok t
  | none => .error ⟨404, msgNotFound⟩

/-- Body of `POST /tasks` after Joi validation (`taskSchemas.create`):
`status` defaults to `todo`, `priority` to `medium`; `completed_at` is not
an accepted field. -/
structure CreateData where
  title : String
  description : Option String := none
  status : Status := .todo
  priority : Priority := .medium
  due_date : Option Int := none
  category_id : Option Nat := none
  assigned_to : Option Nat := none
deriving DecidableEq, Repr

/-- `POST /tasks`: check category ownership when a category is given
(400 "Invalid category ID" otherwise), then insert.  The insert sets
`created_by` to the caller and stores `completed_at` as NULL: the
`set_completed_at` trigger only fires on UPDATE.  A foreign-key violation
on `assigned_to` surfaces as 500 "Failed to create task".  `newId` is the
fresh primary key generated by the store. -/
def createTask (now : Int) (newId : Nat) (s : Store) (uid : Nat) (c : CreateData) :
    Except ErrResp (Task × Store) :=
  if (match c.category_id with
      | some cid => !categoryOwnedBy s cid uid
      | none => false) then
    .error ⟨400, "Invalid category ID"⟩
  else if !fkAssignedOk s c.assigned_to then
    .error ⟨500, "Failed to create task"⟩
  else
    let t : Task :=
      { id := newId, title := c.title, description := c.description,
        status := c.status, priority := c.priority, due_date := c.due_date,
        completed_at := none, category_id := c.category_id,
        created_by := uid, assigned_to := c.assigned_to,
        created_at := now, updated_at := now }
    .ok (t, { s with tasks := s.tasks ++ [t] })

/-- Body of `PUT /tasks/:id` after Joi validation (`taskSchemas.update`):
every field optional, absent fields are left unchanged. -/
structure UpdateData where
  title : Option String := none
  description : Option String := none
  status : Option Status := none
  priority : Option Priority := none
  due_date : Option Int := none
  category_id : Option Nat := none
  assigned_to : Option Nat := none
deriving DecidableEq, Repr

/-- Apply the present fields of a PUT body to a row. -/
def applyUpdateData (t : Task) (u : UpdateData) : Task :=
  { t with
    title := u.title.getD t.title,
    description := match u.description with | some d => some d | none => t.description,
    status := u.status.getD t.status,
    priority := u.priority.getD t.priority,
    due_date := match u.due_date with | some d => some d | none => t.due_date,
    category_id := match u.category_id with | some c => some c | none => t.category_id,
    assigned_to := match u.assigned_to with | some a => some a | none => t.assigned_to }

/-- `PUT /tasks/:id`: category-ownership check first, then
`update(updateData).eq('id', id).or(created_by = caller, assigned_to = caller)`.
Zero matched rows is PGRST116 and becomes 404 "Task not found"; a
foreign-key violation on `assigned_to` is a different store error and
becomes 500.  The BEFORE UPDATE triggers run on the written row. -/
def putTask (now : Int) (s : Store) (uid id : Nat) (u : UpdateData) :
    Except ErrResp (Task × Store) :=
  if (match u.category_id with
      | some cid => !categoryOwnedBy s cid uid
      | none => false) then
    .error ⟨400, "Invalid category ID"⟩
  else
    match s.tasks.find? (fun t => decide (t.id = id) && visibleTo uid t) with
    | none => .error ⟨404, msgNotFound⟩
    | some t0 =>
      if !fkAssignedOk s u.assigned_to then
        .error ⟨500, "Failed to update task"⟩
      else
        let t' := applyUpdateTriggers now t0 (applyUpdateData t0 u)
        .ok (t', replaceTask s t')

/-- `DELETE /tasks/:id`: first select by `id` and `created_by = caller`
(404 on no row), then delete the rows matching both. -/
def deleteTask (s : Store) (uid id : Nat) : Except ErrResp Store :=
  match s.tasks.find? (fun t => decide (t.id = id) && decide (t.created_by = uid)) with
  | none => .error ⟨404, msgNoPerm⟩
  | some _ =>
    .ok { s with tasks := s.tasks.filter (fun t => !(decide (t.id = id) && decide (t.created_by = uid))) }

/-- `PATCH /tasks/:id/assign`: `update(assigned_to).eq('id', id).eq('created_by', caller)`.
Any store error (no matched row, or the `assigned_to` foreign key) is
reported as 404 "Task not found or insufficient permissions". -/
def assignTask (now : Int) (s : Store) (uid id : Nat) (a : Option Nat) :
    Except ErrResp (Task × Store) :=
  match s.tasks.find? (fun t => decide (t.id = id) && decide (t.created_by = uid)) with
  | none => .error ⟨404, msgNoPerm⟩
  | some t0 =>
    if !fkAssignedOk s a then
      .error ⟨404, msgNoPerm⟩
    else
      let t' := applyUpdateTriggers now t0 { t0 with assigned_to := a }
      .ok (t', replaceTask s t')

/-- `PATCH /tasks/:id/status`: route-level status validation (400), then
`update(status).eq('id', id).or(created_by = caller, assigned_to = caller)`;
any store error is 404 "Task not found or insufficient permissions". -/
def setStatus (now : Int) (s : Store) (uid id : Nat) (st : String) :
    Except ErrResp (Task × Store) :=
  match statusOfString st with
  | none => .error ⟨400, "Invalid status value"⟩
  | some ns =>
    match s.tasks.find? (fun t => decide (t.id = id) && visibleTo uid t) with
    | none => .error ⟨404, msgNoPerm⟩
    | some t0 =>
      let t' := applyUpdateTriggers now t0 { t0 with status := ns }
      .ok (t', replaceTask s t')

/-! ### Sorting

`query.order(column, { ascending })` becomes a single-key SQL ORDER BY.
Postgres guarantees only that the output is sorted by that key; it
guarantees nothing about the relative order of rows whose keys tie.  A
deterministic model must still pick one concrete admissible output, and
this one applies an insertion sort to the store's rows: properties proved
about list results must not depend on the order this choice happens to
give tied rows, only on key-sortedness, membership and counts. -/

/-- Insert `a` before the first element `b` of `l` with `le a b`. -/
def oInsert (le : α → α → Bool) (a : α) : List α → List α
  | [] => [a]
  | b :: l => if le a b then a :: b :: l else b :: oInsert le a l

/-- Insertion sort by the boolean comparison `le`: one concrete output
admissible for ORDER BY.  Where this function places key-tied elements is
an artifact of the model, not a guarantee of the program. -/
def iSort (le : α → α → Bool) : List α → List α
  | [] => []
  | a :: l => oInsert le a (iSort le l)

/-- Lexicographic order on character sequences by code point, the order in
which Postgres compares the TEXT sort keys (`title`, `priority`). -/
def chLe : List Char → List Char → Bool
  | [], _ => true
  | _ :: _, [] => false
  | x :: xs, y :: ys =>
    if x.toNat = y.toNat then chLe xs ys else decide (x.toNat < y.toNat)

/-- String comparison used for TEXT sort keys. -/
def strLe (a b : String) : Bool := chLe a.data b.data

/-- Ordering of a nullable column under ASC: values by value, NULL last
(the Postgres default NULLS LAST for ascending order). -/
def optIntLe : Option Int → Option Int → Bool
  | none, none => true
  | none, some _ => false
  | some _, none => true
  | some x, some y => decide (x ≤ y)

/-- The allowed `sort_by` columns (`taskSchemas.query`). -/
inductive SortBy
  | created_at
  | updated_at
  | due_date
  | priority
  | title
deriving DecidableEq, Repr

inductive SortOrder
  | asc
  | desc
deriving DecidableEq, Repr

/-- The ascending comparison for each sort column. -/
def keyLe : SortBy → Task → Task → Bool
  | .created_at, t, u => decide (t.created_at ≤ u.created_at)
  | .updated_at, t, u => decide (t.updated_at ≤ u.updated_at)
  | .due_date, t, u => optIntLe t.due_date u.due_date
  | .priority, t, u => strLe t.priority.text u.priority.text
  | .title, t, u => strLe t.title u.title

/-- The comparison used by `query.order(sort_by, { ascending: sort_order === 'asc' })`;
descending order (NULLS FIRST) is the exact flip of ascending (NULLS LAST). -/
def taskCmp (sb : SortBy) (o : SortOrder) (t u : Task) : Bool :=
  match o with
  | .asc => keyLe sb t u
  | .desc => keyLe sb u t

/-! ### The list endpoint -/

/-- `GET /tasks` query after Joi validation (`taskSchemas.query`). -/
structure ListQuery where
  status : Option Status := none
  priority : Option Priority := none
  category_id : Option Nat := none
  assigned_to : Option Nat := none
  due_before : Option Int := none
  due_after : Option Int := none
  page : Nat := 1
  limit : Nat := 10
  sort_by : SortBy := .created_at
  sort_order : SortOrder := .desc
deriving DecidableEq, Repr

/-- `GET /tasks` query as received, before Joi validation. -/
structure RawQuery where
  status : Option Status := none
  priority : Option Priority := none
  category_id : Option Nat := none
  assigned_to : Option Nat := none
  due_before : Option Int := none
  due_after : Option Int := none
  page : Option Nat := none
  limit : Option Nat := none
  sort_by : Option SortBy := none
  sort_order : Option SortOrder := none
deriving DecidableEq, Repr

/-- `validateQuery(taskSchemas.query)`: `page` defaults to 1 with minimum 1,
`limit` defaults to 10 with bounds 1..100, `sort_by` defaults to
`created_at`, `sort_order` to `desc`; out-of-range values fail with
400 "Query validation error" before any store access. -/
def validateListQuery (r : RawQuery) : Except ErrResp ListQuery :=
  let page := r.page.getD 1
  let limit := r.limit.getD 10
  if page < 1 ∨ limit < 1 ∨ 100 < limit then
    .error ⟨400, "Query validation error"⟩
  else
    .ok { status := r.status, priority := r.priority,
          category_id := r.category_id, assigned_to := r.assigned_to,
          due_before := r.due_before, due_after := r.due_after,
          page := page, limit := limit,
          sort_by := r.sort_by.getD .created_at,
          sort_order := r.sort_order.getD .desc }

/-- The AND-combined row filter of `GET /tasks`: the visibility filter plus
each present query filter; `lte`/`gte` on `due_date` exclude NULL rows. -/
def matchesFilters (uid : Nat) (q : ListQuery) (t : Task) : Bool :=
  visibleTo uid t
  && (match q.status with | some st => decide (t.status = st) | none => true)
  && (match q.priority with | some p => decide (t.priority = p) | none => true)
  && (match q.category_id with | some c => decide (t.category_id = some c) | none => true)
  && (match q.assigned_to with | some a => decide (t.assigned_to = some a) | none => true)
  && (match q.due_before with
      | some d => (match t.due_date with | some x => decide (x ≤ d) | none => false)
      | none => true)
  && (match q.due_after with
      | some d => (match t.due_date with | some x => decide (d ≤ x) | none => false)
      | none => true)

structure Pagination where
  page : Nat
  limit : Nat
  total : Nat
  pages : Nat
deriving DecidableEq, Repr

structure ListResponse where
  data : List Task
  pagination : Pagination
deriving DecidableEq, Repr

/-- `Math.ceil(count / limit)`. -/
def ceilDiv (count limit : Nat) : Nat := Nat.ceil ((count : ℚ) / (limit : ℚ))

/-- `GET /tasks`: filter under the caller's visibility, count all matching
rows (`count: 'exact'`, independent of the range), sort by the single key,
and return the window `range(from, to)` with `from = (page-1)*limit` and
`to = from + limit - 1` inclusive, plus the pagination block. -/
def listTasks (s : Store) (uid : Nat) (q : ListQuery) : ListResponse :=
  let rows := s.tasks.filter (matchesFilters uid q)
  let sorted := iSort (taskCmp q.sort_by q.sort_order) rows
  let offset := (q.page - 1) * q.limit
  let items := (sorted.drop offset).take q.limit
  { data := items,
    pagination :=
      { page := q.page, limit := q.limit, total := rows.length,
        pages := ceilDiv rows.length q.limit } }

/-! ### Analytics -/

/-- `Math.round`: round half toward positive infinity. -/
def jsRound (q : ℚ) : Int := Int.floor (q + 1 / 2)

/-- `Math.round(x * 100) / 100`: round to two decimal places. -/
def round2 (q : ℚ) : ℚ := (jsRound (q * 100) : ℚ) / 100

/-- One UTC day in milliseconds. -/
def dayMs : Int := 86400000

/-- The UTC calendar day of a millisecond timestamp: two timestamps get the
same `toISOString().split('T')[0]` date exactly when they have the same
floor of `t / 86400000`. -/
def dayOf (t : Int) : Int := t / dayMs

/-- `GET /analytics/overview` response body. -/
structure Overview where
  total_tasks : Nat
  completed_tasks : Nat
  in_progress_tasks : Nat
  todo_tasks : Nat
  overdue_tasks : Nat
  completion_rate : ℚ
deriving DecidableEq, Repr

/-- `GET /analytics/overview`: five separate counts over the caller's
visible rows, and `completion_rate = (completed / total) * 100`
(0 when there are no rows) rounded to two decimals. -/
def overview (now : Int) (s : Store) (uid : Nat) : Overview :=
  let total := s.tasks.countP (fun t => visibleTo uid t)
  let completed := s.tasks.countP (fun t => decide (t.status = .completed) && visibleTo uid t)
  let in_progress := s.tasks.countP (fun t => decide (t.status = .in_progress) && visibleTo uid t)
  let todoCount := s.tasks.countP (fun t => decide (t.status = .todo) && visibleTo uid t)
  let overdue := s.tasks.countP (fun t =>
    (match t.due_date with | some d => decide (d < now) | none => false)
    && decide (t.status ≠ .completed) && visibleTo uid t)
  let completionRate : ℚ := if 0 < total then ((completed : ℚ) / (total : ℚ)) * 100 else 0
  { total_tasks := total, completed_tasks := completed,
    in_progress_tasks := in_progress, todo_tasks := todoCount,
    overdue_tasks := overdue, completion_rate := round2 completionRate }

/-- `GET /analytics/completion-rates` response body; each entry of
`daily_completions` is a UTC day paired with its completion count. -/
structure CompletionRates where
  period_days : Nat
  total_completed : Nat
  daily_completions : List (Int × Nat)
deriving DecidableEq, Repr

/-- The completion-rates query: visible tasks with `status = completed` and
`completed_at >= now - period days` (NULL `completed_at` excluded by `gte`),
ordered by `completed_at` ascending. -/
def completedInWindow (now : Int) (daysAgo : Nat) (s : Store) (uid : Nat) : List Task :=
  let start := now - (daysAgo : Int) * dayMs
  iSort (fun t u => optIntLe t.completed_at u.completed_at)
    (s.tasks.filter (fun t =>
      decide (t.status = .completed)
      && (match t.completed_at with | some c => decide (start ≤ c) | none => false)
      && visibleTo uid t))

/-- Whether a task's `completed_at` UTC date equals the day `d`. -/
def completedOn (d : Int) (t : Task) : Bool :=
  match t.completed_at with
  | some c => decide (dayOf c = d)
  | none => false

/-- The `dailyCompletions` dictionary of `GET /analytics/completion-rates`
in insertion order: one bucket per day `today - i` for `i < period`,
initialized to 0 and incremented per completed task whose `completed_at`
date matches the bucket key — since the keys are pairwise distinct, each
bucket holds the count of tasks matching its key, and tasks whose date is
no bucket key are dropped by the `hasOwnProperty` check. -/
def completionBuckets (now : Int) (daysAgo : Nat) (L : List Task) : List (Int × Nat) :=
  (List.range daysAgo).map (fun (i : Nat) =>
    (dayOf (now - (i : Int) * dayMs),
     L.countP (completedOn (dayOf (now - (i : Int) * dayMs)))))

/-- `GET /analytics/completion-rates`: the window's completed tasks, the
day buckets, and the bucket pairs sorted by date ascending. -/
def completionRates (now : Int) (daysAgo : Nat) (s : Store) (uid : Nat) : CompletionRates :=
  { period_days := daysAgo,
    total_completed := (completedInWindow now daysAgo s uid).length,
    daily_completions := iSort (fun a b => decide (a.1 ≤ b.1))
      (completionBuckets now daysAgo (completedInWindow now daysAgo s uid)) }

/-- Per-priority created/completed counts of `GET /analytics/productivity`. -/
structure PriorityPerf where
  high_created : Nat
  high_completed : Nat
  medium_created : Nat
  medium_completed : Nat
  low_created : Nat
  low_completed : Nat
deriving DecidableEq, Repr

/-- `GET /analytics/productivity` response body. -/
structure Productivity where
  period_days : Nat
  tasks_created : Nat
  tasks_completed : Nat
  completion_rate : ℚ
  average_completion_time_hours : ℚ
  priority_performance : PriorityPerf
deriving DecidableEq, Repr

/-- The hours between creation and completion of one task, 0 when the task
has no `completed_at` (such a task is skipped by the numerator filter). -/
def completionHours (t : Task) : ℚ :=
  match t.completed_at with
  | some c => ((c - t.created_at : Int) : ℚ) / 3600000
  | none => 0

/-- `GET /analytics/productivity`: over visible tasks with
`created_at >= now - period days`, count created and completed tasks, sum
`(completed_at - created_at)` hours over the tasks that have a
`completed_at`, and divide by `Math.max(completedTasks, 1)` (the
divide-by-zero guard); the average is rounded to two decimals. -/
def productivity (now : Int) (daysAgo : Nat) (s : Store) (uid : Nat) : Productivity :=
  let start := now - (daysAgo : Int) * dayMs
  let tasks := s.tasks.filter (fun t => decide (start ≤ t.created_at) && visibleTo uid t)
  let createdTasks := tasks.length
  let completedTasks := tasks.countP (fun t => decide (t.status = .completed))
  let sumHours : ℚ :=
    (tasks.filter (fun t => t.completed_at.isSome)).foldl
      (fun acc t => acc + completionHours t) 0
  let averageCompletionTime := sumHours / ((Nat.max completedTasks 1 : Nat) : ℚ)
  let perPrio := fun (p : Priority) =>
    ((tasks.filter (fun t => decide (t.priority = p))).length,
     (tasks.filter (fun t => decide (t.priority = p) && decide (t.status = .completed))).length)
  { period_days := daysAgo, tasks_created := createdTasks,
    tasks_completed := completedTasks,
    completion_rate :=
      if 0 < createdTasks then ((completedTasks : ℚ) / (createdTasks : ℚ)) * 100 else 0,
    average_completion_time_hours := round2 averageCompletionTime,
    priority_performance :=
      { high_created := (perPrio .high).1, high_completed := (perPrio .high).2,
        medium_created := (perPrio .medium).1, medium_completed := (perPrio .medium).2,
        low_created := (perPrio .low).1, low_completed := (perPrio .low).2 } }

/-- The trailing window of the productivity view: visible tasks with
`created_at >= now - period days`. -/
def windowTasks (now : Int) (daysAgo : Nat) (s : Store) (uid : Nat) : List Task :=
  s.tasks.filter (fun t =>
    decide (now - (daysAgo : Int) * dayMs ≤ t.created_at) && visibleTo uid t)

/-! ### Concrete fixtures -/

/-- A task created by user 10 and assigned to user 20. -/
def exTask : Task :=
  { id := 1, title := "Write report", description := none, status := .todo,
    priority := .medium, due_date := none, completed_at := none,
    category_id := none, created_by := 10, assigned_to := some 20,
    created_at := 0, updated_at := 0 }

/-- A store with two known users and the one task. -/
def exStore : Store := { users := [10, 20], categories := [], tasks := [exTask] }

/-- The row produced by completing `exTask` at time 7. -/
def exDone : Task := applyUpdateTriggers 7 exTask { exTask with status := .completed }

/-- A task completed two hours after its creation. -/
def exProdTask : Task :=
  { exTask with id := 7, status := .completed, completed_at := some 7200000 }

/-- A store whose tasks all satisfy the completion biconditional. -/
def exStoreProd : Store := { exStore with tasks := [exProdTask, exTask] }

/-- Noon (UTC) of day 5. -/
def exNow : Int := 5 * 86400000 + 43200000

/-- A task completed exactly at the start of the 2-day trailing window
ending at `exNow`: inside the window, but dated before every bucket. -/
def exLateTask : Task :=
  { exTask with
    id := 6, status := .completed,
    completed_at := some (exNow - 2 * 86400000) }

def exStoreLate : Store := { exStore with tasks := [exLateTask] }

/-! ### General lemmas about the stable sort -/

theorem oInsert_perm (le : α → α → Bool) (a : α) :
    ∀ l : List α, (oInsert le a l).Perm (a :: l) := by
  intro l
  induction l with
  | nil => simp [oInsert]
  | cons b l ih =>
    unfold oInsert
    by_cases h : le a b
    · simp [h]
    · simp only [h, if_false]
      exact (ih.cons b).trans (List.Perm.swap a b l)

theorem iSort_perm (le : α → α → Bool) : ∀ l : List α, (iSort le l).Perm l := by
  intro l
  induction l with
  | nil => simp [iSort]
  | cons a l ih => exact (oInsert_perm le a (iSort le l)).trans (ih.cons a)

theorem mem_oInsert (le : α → α → Bool) (a x : α) (l : List α) :
    x ∈ oInsert le a l ↔ x = a ∨ x ∈ l := by
  rw [(oInsert_perm le a l).mem_iff, List.mem_cons]

theorem pairwise_oInsert (le : α → α → Bool)
    (htot : ∀ a b, le a b = true ∨ le b a = true)
    (htrans : ∀ a b c, le a b = true → le b c = true → le a c = true)
    (a : α) : ∀ l : List α, l.Pairwise (fun x y => le x y = true) →
      (oInsert le a l).Pairwise (fun x y => le x y = true) := by
  intro l
  induction l with
  | nil => intro _; simp [oInsert]
  | cons b l ih =>
    intro h
    rw [List.pairwise_cons] at h
    unfold oInsert
    by_cases hab : le a b
    · rw [if_pos hab, List.pairwise_cons]
      refine ⟨?_, List.pairwise_cons.mpr h⟩
      intro x hx
      rcases List.mem_cons.mp hx with rfl | hx
      · exact hab
      · exact htrans a b x hab (h.1 x hx)
    · rw [if_neg hab, List.pairwise_cons]
      refine ⟨?_, ih h.2⟩
      intro x hx
      rcases (mem_oInsert le a x l).mp hx with rfl | hx
      · rcases htot x b with hxb | hbx
        · exact absurd hxb hab
        · exact hbx
      · exact h.1 x hx

theorem pairwise_iSort (le : α → α → Bool)
    (htot : ∀ a b, le a b = true ∨ le b a = true)
    (htrans : ∀ a b c, le a b = true → le b c = true → le a c = true) :
    ∀ l : List α, (iSort le l).Pairwise (fun x y => le x y = true) := by
  intro l
  induction l with
  | nil => simp [iSort]
  | cons a l ih => exact pairwise_oInsert le htot htrans a (iSort le l) ih

theorem oInsert_of_forall_not (le : α → α → Bool) (a : α) :
    ∀ l : List α, (∀ b ∈ l, le a b = false) → oInsert le a l = l ++ [a] := by
  intro l
  induction l with
  | nil => simp [oInsert]
  | cons b l ih =>
    intro h
    unfold oInsert
    have hb : le a b = false := h b (List.mem_cons_self b l)
    simp [hb, ih (fun x hx => h x (List.mem_cons_of_mem b hx))]

/-- Sorting a strictly descending list reverses it. -/
theorem iSort_eq_reverse (le : α → α → Bool) :
    ∀ l : List α, l.Pairwise (fun x y => le x y = false) → iSort le l = l.reverse := by
  intro l
  induction l with
  | nil => simp [iSort]
  | cons a l ih =>
    intro h
    rw [List.pairwise_cons] at h
    unfold iSort
    rw [ih h.2, oInsert_of_forall_not le a l.reverse
      (fun b hb => h.1 b (List.mem_reverse.mp hb)), List.reverse_cons]

/-! ### The sort keys are total preorders -/

theorem chLe_total : ∀ xs ys : List Char, chLe xs ys = true ∨ chLe ys xs = true := by
  intro xs
  induction xs with
  | nil => intro ys; left; rfl
  | cons x xs ih =>
    intro ys
    cases ys with
    | nil => right; rfl
    | cons y ys =>
      simp only [chLe]
      by_cases hxy : x.toNat = y.toNat
      · rw [if_pos hxy, if_pos hxy.symm]
        exact ih ys
      · rw [if_neg hxy, if_neg (fun h => hxy h.symm)]
        rcases Nat.lt_or_ge x.toNat y.toNat with h | h
        · left; exact decide_eq_true h
        · right
          exact decide_eq_true (Nat.lt_of_le_of_ne h (fun e => hxy e.symm))

theorem chLe_trans :
    ∀ xs ys zs : List Char, chLe xs ys = true → chLe ys zs = true →
      chLe xs zs = true := by
  intro xs
  induction xs with
  | nil => intro ys zs _ _; rfl
  | cons x xs ih =>
    intro ys zs h1 h2
    cases ys with
    | nil => simp [chLe] at h1
    | cons y ys =>
      cases zs with
      | nil => simp [chLe] at h2
      | cons z zs =>
        simp only [chLe] at h1 h2 ⊢
        by_cases hxy : x.toNat = y.toNat <;> by_cases hyz : y.toNat = z.toNat
        · rw [if_pos hxy] at h1
          rw [if_pos hyz] at h2
          rw [if_pos (hxy.trans hyz)]
          exact ih ys zs h1 h2
        · rw [if_pos hxy] at h1
          rw [if_neg hyz] at h2
          rw [if_neg (hxy ▸ hyz)]
          rw [hxy]
          exact h2
        · rw [if_neg hxy] at h1
          rw [if_pos hyz] at h2
          rw [if_neg (hyz ▸ hxy), ← hyz]
          exact h1
        · rw [if_neg hxy] at h1
          rw [if_neg hyz] at h2
          have hx : x.toNat < y.toNat := of_decide_eq_true h1
          have hy : y.toNat < z.toNat := of_decide_eq_true h2
          rw [if_neg (Nat.ne_of_lt (hx.trans hy))]
          exact decide_eq_true (hx.trans hy)

theorem strLe_total (a b : String) : strLe a b = true ∨ strLe b a = true :=
  chLe_total a.data b.data

theorem strLe_trans (a b c : String) :
    strLe a b = true → strLe b c = true → strLe a c = true :=
  chLe_trans a.data b.data c.data

theorem optIntLe_total : ∀ a b : Option Int, optIntLe a b = true ∨ optIntLe b a = true := by
  intro a b
  cases a <;> cases b <;> simp [optIntLe] <;> omega

theorem optIntLe_trans :
    ∀ a b c : Option Int, optIntLe a b = true → optIntLe b c = true →
      optIntLe a c = true := by
  intro a b c
  cases a <;> cases b <;> cases c <;> simp [optIntLe] <;> omega

theorem keyLe_total (sb : SortBy) (t u : Task) :
    keyLe sb t u = true ∨ keyLe sb u t = true := by
  cases sb <;> simp only [keyLe]
  · rcases Int.le_total t.created_at u.created_at with h | h
    · left; exact decide_eq_true h
    · right; exact decide_eq_true h
  · rcases Int.le_total t.updated_at u.updated_at with h | h
    · left; exact decide_eq_true h
    · right; exact decide_eq_true h
  · exact optIntLe_total t.due_date u.due_date
  · exact strLe_total t.priority.text u.priority.text
  · exact strLe_total t.title u.title

theorem keyLe_trans (sb : SortBy) (t u v : Task) :
    keyLe sb t u = true → keyLe sb u v = true → keyLe sb t v = true := by
  cases sb <;> simp only [keyLe] <;> intro h1 h2
  · exact decide_eq_true ((of_decide_eq_true h1).trans (of_decide_eq_true h2))
  · exact decide_eq_true ((of_decide_eq_true h1).trans (of_decide_eq_true h2))
  · exact optIntLe_trans _ _ _ h1 h2
  · exact strLe_trans _ _ _ h1 h2
  · exact strLe_trans _ _ _ h1 h2

theorem taskCmp_total (sb : SortBy) (o : SortOrder) (t u : Task) :
    taskCmp sb o t u = true ∨ taskCmp sb o u t = true := by
  cases o
  · exact keyLe_total sb t u
  · exact keyLe_total sb u t

theorem taskCmp_trans (sb : SortBy) (o : SortOrder) (t u v : Task) :
    taskCmp sb o t u = true → taskCmp sb o u v = true → taskCmp sb o t v = true := by
  cases o
  · exact keyLe_trans sb t u v
  · intro h1 h2; exact keyLe_trans sb v u t h2 h1

/-! ### Counting lemmas -/

theorem sum_map_add (f g : β → Nat) : ∀ ds : List β,
    (ds.map (fun d => f d + g d)).sum = (ds.map f).sum + (ds.map g).sum := by
  intro ds
  induction ds with
  | nil => rfl
  | cons d ds ih =>
    simp only [List.map_cons, List.sum_cons, ih]
    omega

theorem sum_map_ite_le_one (x : α) (p : β → α → Bool) :
    ∀ ds : List β, ds.Pairwise (fun a b => a ≠ b) →
      (∀ d d', p d x = true → p d' x = true → d = d') →
      (ds.map (fun d => if p d x then (1 : Nat) else 0)).sum ≤ 1 := by
  intro ds
  induction ds with
  | nil => intro _ _; simp
  | cons d ds ih =>
    intro hds huniq
    rw [List.pairwise_cons] at hds
    rw [List.map_cons, List.sum_cons]
    by_cases hdx : p d x
    · rw [if_pos hdx]
      have hz : ((ds.map (fun e => if p e x then (1 : Nat) else 0))).sum = 0 := by
        apply List.sum_eq_zero
        intro v hv
        obtain ⟨e, he, rfl⟩ := List.mem_map.mp hv
        rw [if_neg]
        intro hex
        exact hds.1 e he (huniq d e hdx hex)
      omega
    · rw [if_neg hdx]
      have h := ih hds.2 huniq
      omega

/-- Counting one list against pairwise-distinct keys, where each element
matches at most one key, counts every element at most once. -/
theorem sum_map_countP_le (p : β → α → Bool) :
    ∀ (l : List α) (ds : List β), ds.Pairwise (fun a b => a ≠ b) →
      (∀ x d d', p d x = true → p d' x = true → d = d') →
      (ds.map (fun d => l.countP (p d))).sum ≤ l.length := by
  intro l
  induction l with
  | nil =>
    intro ds _ _
    have hz : (ds.map (fun d => List.countP (p d) [])).sum = 0 := by
      apply List.sum_eq_zero
      intro v hv
      obtain ⟨e, _, rfl⟩ := List.mem_map.mp hv
      simp
    simp [hz]
  | cons x l ih =>
    intro ds hds huniq
    have hcons : ds.map (fun d => (x :: l).countP (p d)) =
        ds.map (fun d => l.countP (p d) + (if p d x then 1 else 0)) :=
      List.map_congr_left (fun d _ => List.countP_cons (p d) x l)
    rw [hcons, sum_map_add]
    have h1 := ih ds hds (fun y d d' => huniq y d d')
    have h2 := sum_map_ite_le_one x p ds hds (fun d d' => huniq x d d')
    simp only [List.length_cons]
    omega

/-! ### Day arithmetic -/

theorem dayOf_sub_days (now : Int) (i : Nat) :
    dayOf (now - (i : Int) * dayMs) = dayOf now - (i : Int) := by
  unfold dayOf
  have h : now - (i : Int) * dayMs = now + (-(i : Int)) * dayMs := by ring
  rw [h, Int.add_mul_ediv_right now (-(i : Int)) (by decide : dayMs ≠ 0)]
  ring

/-- A task matches at most one day bucket. -/
theorem completedOn_unique (t : Task) (d d' : Int)
    (h : completedOn d t = true) (h' : completedOn d' t = true) : d = d' := by
  unfold completedOn at h h'
  cases hc : t.completed_at with
  | none => rw [hc] at h; exact absurd h (by simp)
  | some c =>
    rw [hc] at h h'
    exact (of_decide_eq_true h).symm.trans (of_decide_eq_true h')

/-! ### The BEFORE UPDATE triggers -/

/-- What the pair of UPDATE triggers guarantees for any route-level update
that does not itself write `completed_at` (none of the routes do). -/
theorem applyUpdateTriggers_props (now : Int) (old cand : Task)
    (hc : cand.completed_at = old.completed_at) :
    (applyUpdateTriggers now old cand).status = cand.status ∧
    (cand.status = .completed ∧ old.status ≠ .completed →
      (applyUpdateTriggers now old cand).completed_at = some now) ∧
    (cand.status ≠ .completed →
      (applyUpdateTriggers now old cand).completed_at = none) ∧
    ((old.status = .completed ↔ old.completed_at ≠ none) →
      ((applyUpdateTriggers now old cand).status = .completed ↔
        (applyUpdateTriggers now old cand).completed_at ≠ none)) := by
  unfold applyUpdateTriggers update_updated_at_column set_completed_at
  by_cases h2 : cand.status = .completed
  · by_cases h3 : old.status = .completed
    · rw [if_neg (by simp [h2, h3]), if_neg (by simp [h2])]
      refine ⟨rfl, ?_, ?_, ?_⟩
      · intro h; exact absurd h3 h.2
      · intro h; exact absurd h2 h
      · intro hbi
        simp only [h2, hc, true_iff]
        exact (hbi.mp h3)
    · rw [if_pos ⟨h2, h3⟩]
      refine ⟨rfl, ?_, ?_, ?_⟩
      · intro _; rfl
      · intro h; exact absurd h2 h
      · intro _
        simp [h2]
  · rw [if_neg (by simp [h2]), if_pos h2]
    refine ⟨rfl, ?_, ?_, ?_⟩
    · intro h; exact absurd h.1 h2
    · intro _; rfl
    · intro _
      simp [h2]

/-- The triggers never touch `assigned_to`. -/
theorem applyUpdateTriggers_assigned (now : Int) (old cand : Task) :
    (applyUpdateTriggers now old cand).assigned_to = cand.assigned_to := by
  unfold applyUpdateTriggers update_updated_at_column set_completed_at
  split_ifs <;> rfl

/-! ### Claims -/

/-- C1, counterexample: the claim says a task created directly with status
`completed` satisfies `completed_at` set iff `status = completed`; but the
`set_completed_at` trigger only fires on UPDATE, so `createTask` stores
`completed_at = NULL` together with `status = completed`. -/
theorem c1_counterexample :
    (createTask 5 2 exStore 10 { title := "Done on arrival", status := .completed }).toOption.map
        (fun p => (p.1.status, p.1.completed_at)) =
      some (Status.completed, none) := by
  rfl

/-- C1 (amended): after every UPDATE-path mutation (`setStatus` and the
general `updateTask`) the `completed_at` rule holds — a transition into
`completed` stamps the transition time, an update ending away from
`completed` clears the stamp, and the biconditional
`status = completed ↔ completed_at set` is preserved; `createTask` always
stores `completed_at = NULL`, so the biconditional holds at creation
exactly when the created status is not `completed`. -/
theorem c1_amended :
    (∀ (now : Int) (s : Store) (uid id : Nat) (st : String) (ns : Status)
        (t0 t' : Task) (s2 : Store),
      statusOfString st = some ns →
      s.tasks.find? (fun t => decide (t.id = id) && visibleTo uid t) = some t0 →
      setStatus now s uid id st = .ok (t', s2) →
      ((ns = .completed ∧ t0.status ≠ .completed → t'.completed_at = some now) ∧
       (ns ≠ .completed → t'.completed_at = none) ∧
       ((t0.status = .completed ↔ t0.completed_at ≠ none) →
         (t'.status = .completed ↔ t'.completed_at ≠ none)))) ∧
    (∀ (now : Int) (s : Store) (uid id : Nat) (u : UpdateData)
        (t0 t' : Task) (s2 : Store),
      s.tasks.find? (fun t => decide (t.id = id) && visibleTo uid t) = some t0 →
      putTask now s uid id u = .ok (t', s2) →
      ((u.status.getD t0.status = .completed ∧ t0.status ≠ .completed →
         t'.completed_at = some now) ∧
       (u.status.getD t0.status ≠ .completed → t'.completed_at = none) ∧
       ((t0.status = .completed ↔ t0.completed_at ≠ none) →
         (t'.status = .completed ↔ t'.completed_at ≠ none)))) ∧
    (∀ (now : Int) (newId : Nat) (s : Store) (uid : Nat) (c : CreateData)
        (t' : Task) (s2 : Store),
      createTask now newId s uid c = .ok (t', s2) →
      (t'.completed_at = none ∧
       (c.status ≠ .completed → (t'.status = .completed ↔ t'.completed_at ≠ none)))) := by
  refine ⟨?_, ?_, ?_⟩
  · intro now s uid id st ns t0 t' s2 hst hfind hok
    unfold setStatus at hok
    rw [hst] at hok
    simp only [hfind] at hok
    simp only [Except.ok.injEq, Prod.mk.injEq] at hok
    obtain ⟨ht, _⟩ := hok
    subst ht
    have P := applyUpdateTriggers_props now t0 { t0 with status := ns } rfl
    exact ⟨fun h => P.2.1 h, fun h => P.2.2.1 h, fun h => P.2.2.2 h⟩
  · intro now s uid id u t0 t' s2 hfind hok
    unfold putTask at hok
    split at hok
    · exact absurd hok (by simp)
    · rw [hfind] at hok
      simp only [] at hok
      split at hok
      · exact absurd hok (by simp)
      · simp only [Except.ok.injEq, Prod.mk.injEq] at hok
        obtain ⟨ht, _⟩ := hok
        subst ht
        have P := applyUpdateTriggers_props now t0 (applyUpdateData t0 u) rfl
        exact ⟨fun h => P.2.1 h, fun h => P.2.2.1 h, fun h => P.2.2.2 h⟩
  · intro now newId s uid c t' s2 hok
    unfold createTask at hok
    split at hok
    · exact absurd hok (by simp)
    · split at hok
      · exact absurd hok (by simp)
      · simp only [Except.ok.injEq, Prod.mk.injEq] at hok
        obtain ⟨ht, _⟩ := hok
        subst ht
        refine ⟨rfl, fun h => ?_⟩
        simp only []
        exact ⟨fun hc => absurd hc h, fun hc => absurd rfl hc⟩

/-- C1 witness: completing the fixture task at time 7 stamps
`completed_at = 7` and restores the biconditional. -/
theorem c1_witness :
    exDone.completed_at = some 7 ∧
    (exDone.status = .completed ↔ exDone.completed_at ≠ none) := by
  have h := c1_amended
  refine ⟨?_, ?_⟩
  · exact (h.1 7 exStore 20 1 "completed" .completed exTask exDone
      (replaceTask exStore exDone) rfl rfl rfl).1 ⟨rfl, by decide⟩
  · exact (h.1 7 exStore 20 1 "completed" .completed exTask exDone
      (replaceTask exStore exDone) rfl rfl rfl).2.2 (by decide)

/-- C2, counterexample: the claim says the general update (PUT) succeeds
only for the task's creator; but `PUT /tasks/:id` filters by
`created_by = caller OR assigned_to = caller`, so the assignee (user 20,
not the creator) successfully edits the title. -/
theorem c2_counterexample :
    (putTask 5 exStore 20 1 { title := some "Edited by assignee" }).toOption.isSome = true ∧
    (∀ t ∈ exStore.tasks, t.created_by ≠ 20) := by
  exact ⟨rfl, by decide⟩

/-- C2 (amended): delete and assign succeed only when the caller is the
task's creator, but the general update (PUT) succeeds for the creator or
the assignee alike — an assignee who is not the creator can edit the
task's fields (title, description, category, even `assigned_to`) through
PUT, while delete and the assign endpoint still fail for them. -/
theorem c2_amended :
    (∀ (s : Store) (uid id : Nat) (s' : Store),
      deleteTask s uid id = .ok s' →
      ∃ t ∈ s.tasks, t.id = id ∧ t.created_by = uid) ∧
    (∀ (now : Int) (s : Store) (uid id : Nat) (a : Option Nat) (t' : Task) (s' : Store),
      assignTask now s uid id a = .ok (t', s') →
      ∃ t ∈ s.tasks, t.id = id ∧ t.created_by = uid) ∧
    (∀ (now : Int) (s : Store) (uid id : Nat) (u : UpdateData) (t' : Task) (s' : Store),
      putTask now s uid id u = .ok (t', s') →
      ∃ t ∈ s.tasks, t.id = id ∧ (t.created_by = uid ∨ t.assigned_to = some uid)) ∧
    (∀ (now : Int) (s : Store) (uid id : Nat) (u : UpdateData) (t0 : Task),
      s.tasks.find? (fun t => decide (t.id = id) && visibleTo uid t) = some t0 →
      u.category_id = none → u.assigned_to = none →
      ∃ t' s', putTask now s uid id u = .ok (t', s')) := by
  refine ⟨?_, ?_, ?_, ?_⟩
  · intro s uid id s' hok
    unfold deleteTask at hok
    cases hf : s.tasks.find? (fun t => decide (t.id = id) && decide (t.created_by = uid)) with
    | none => rw [hf] at hok; exact absurd hok (by simp)
    | some t =>
      have hp := List.find?_some hf
      rw [Bool.and_eq_true, decide_eq_true_iff, decide_eq_true_iff] at hp
      exact ⟨t, List.mem_of_find?_eq_some hf, hp.1, hp.2⟩
  · intro now s uid id a t' s' hok
    unfold assignTask at hok
    cases hf : s.tasks.find? (fun t => decide (t.id = id) && decide (t.created_by = uid)) with
    | none => rw [hf] at hok; exact absurd hok (by simp)
    | some t =>
      have hp := List.find?_some hf
      rw [Bool.and_eq_true, decide_eq_true_iff, decide_eq_true_iff] at hp
      exact ⟨t, List.mem_of_find?_eq_some hf, hp.1, hp.2⟩
  · intro now s uid id u t' s' hok
    unfold putTask at hok
    split at hok
    · exact absurd hok (by simp)
    · cases hf : s.tasks.find? (fun t => decide (t.id = id) && visibleTo uid t) with
      | none => rw [hf] at hok; exact absurd hok (by simp)
      | some t =>
        have hp := List.find?_some hf
        rw [Bool.and_eq_true, decide_eq_true_iff] at hp
        have hv := hp.2
        rw [visibleTo, Bool.or_eq_true, decide_eq_true_iff, decide_eq_true_iff] at hv
        exact ⟨t, List.mem_of_find?_eq_some hf, hp.1, hv⟩
  · intro now s uid id u t0 hfind hcat hassign
    unfold putTask
    rw [hcat]
    simp only [if_neg (by simp : ¬ (false = true))]
    rw [hfind, hassign]
    exact ⟨_, _, rfl⟩

/-- C2 witness: the creator deletes their task; an assignee succeeds with a
PUT on a task they do not own. -/
theorem c2_witness :
    (∃ t ∈ exStore.tasks, t.id = 1 ∧ t.created_by = 10) ∧
    (∃ t' s', putTask 5 exStore 20 1 { title := some "Edited by assignee" } = .ok (t', s')) := by
  refine ⟨?_, ?_⟩
  · exact c2_amended.1 exStore 10 1 { exStore with tasks := [] } rfl
  · exact c2_amended.2.2.2 5 exStore 20 1 { title := some "Edited by assignee" } exTask rfl rfl rfl

/-- C9, counterexample: the claim says an assign call by the creator
succeeds for every `assigneeUserId` with no existence check; but
`tasks.assigned_to` carries a foreign key to `auth.users(id)`, so
assigning the unknown user 99 fails (reported as 404 by the route). -/
theorem c9_counterexample :
    assignTask 9 exStore 10 1 (some 99) = .error ⟨404, msgNoPerm⟩ ∧
    (∃ t ∈ exStore.tasks, t.id = 1 ∧ t.created_by = 10) ∧
    exStore.users.contains 99 = false := by
  exact ⟨rfl, by decide, rfl⟩

/-- C9 (amended): the assign route itself validates nothing about the
target user — any id present in `auth.users` is accepted, with no
relationship to the caller required — but the store's foreign key on
`assigned_to` rejects ids that are not known users, surfaced by the route
as a 404 error. -/
theorem c9_amended :
    ∀ (now : Int) (s : Store) (uid id : Nat) (a : Nat) (t0 : Task),
      s.tasks.find? (fun t => decide (t.id = id) && decide (t.created_by = uid)) = some t0 →
      ((s.users.contains a = true →
        ∃ t' s', assignTask now s uid id (some a) = .ok (t', s') ∧
          t'.assigned_to = some a) ∧
       (s.users.contains a = false →
        assignTask now s uid id (some a) = .error ⟨404, msgNoPerm⟩)) := by
  intro now s uid id a t0 hfind
  constructor
  · intro hmem
    unfold assignTask
    rw [hfind]
    simp only [fkAssignedOk, hmem, Bool.not_true, if_neg (by simp : ¬ (false = true))]
    exact ⟨_, _, rfl, applyUpdateTriggers_assigned now t0 { t0 with assigned_to := some a }⟩
  · intro hmem
    unfold assignTask
    rw [hfind]
    simp only [fkAssignedOk, hmem, Bool.not_false, if_pos trivial]

/-- C9 witness: the creator assigns known user 20 (no relationship check),
and assigning unknown user 99 fails. -/
theorem c9_witness :
    (∃ t' s', assignTask 9 exStore 10 1 (some 20) = .ok (t', s') ∧
      t'.assigned_to = some 20) ∧
    assignTask 9 exStore 10 1 (some 99) = .error ⟨404, msgNoPerm⟩ := by
  exact ⟨(c9_amended 9 exStore 10 1 20 exTask rfl).1 rfl,
         (c9_amended 9 exStore 10 1 99 exTask rfl).2 rfl⟩

/-- C3: for a caller who is neither creator nor assignee of any task with
the given id — which covers a truly absent id as well — get, general
update (with a well-formed body), delete and status change (with a valid
status) all answer the operation's fixed not-found-shaped 404 response,
the same value produced for an absent id, never a distinct forbidden
signal. -/
theorem c3_thm (now : Int) (s : Store) (uid id : Nat) (u : UpdateData)
    (st : String) (ns : Status)
    (hnv : ∀ t ∈ s.tasks, t.id = id → t.created_by ≠ uid ∧ t.assigned_to ≠ some uid)
    (hcat : u.category_id = none)
    (hst : statusOfString st = some ns) :
    getTask s uid id = .error ⟨404, msgNotFound⟩ ∧
    putTask now s uid id u = .error ⟨404, msgNotFound⟩ ∧
    deleteTask s uid id = .error ⟨404, msgNoPerm⟩ ∧
    setStatus now s uid id st = .error ⟨404, msgNoPerm⟩ := by
  have hvis : s.tasks.find? (fun t => decide (t.id = id) && visibleTo uid t) = none := by
    rw [List.find?_eq_none]
    intro t ht hp
    rw [Bool.and_eq_true, decide_eq_true_iff, visibleTo, Bool.or_eq_true,
        decide_eq_true_iff, decide_eq_true_iff] at hp
    rcases hp.2 with hcb | has
    · exact (hnv t ht hp.1).1 hcb
    · exact (hnv t ht hp.1).2 has
  have hcre : s.tasks.find? (fun t => decide (t.id = id) && decide (t.created_by = uid)) = none := by
    rw [List.find?_eq_none]
    intro t ht hp
    rw [Bool.and_eq_true, decide_eq_true_iff, decide_eq_true_iff] at hp
    exact (hnv t ht hp.1).1 hp.2
  refine ⟨?_, ?_, ?_, ?_⟩
  · unfold getTask
    rw [hvis]
  · unfold putTask
    rw [hcat]
    simp only [if_neg (by simp : ¬ (false = true))]
    rw [hvis]
  · unfold deleteTask
    rw [hcre]
  · unfold setStatus
    rw [hst]
    simp only [hvis]

/-- C3 witness: user 30, who is neither the creator (10) nor the assignee
(20) of the fixture task, receives the absent-id responses. -/
theorem c3_witness :
    getTask exStore 30 1 = .error ⟨404, msgNotFound⟩ ∧
    putTask 5 exStore 30 1 {} = .error ⟨404, msgNotFound⟩ ∧
    deleteTask exStore 30 1 = .error ⟨404, msgNoPerm⟩ ∧
    setStatus 5 exStore 30 1 "todo" = .error ⟨404, msgNoPerm⟩ :=
  c3_thm 5 exStore 30 1 {} "todo" .todo (by decide) rfl rfl

/-- C4: a validated list query has `page` defaulting to 1, `limit`
defaulting to 10 and bounded within 1..100; the returned items are the
window from offset `(page-1)*limit` of length at most `limit` over the
sorted filtered rows; `total` counts all rows matching the filters under
the caller's visibility, independent of `page` and `limit`; and
`pages = ceil(total / limit)`. -/
theorem c4_thm (r : RawQuery) (s : Store) (uid : Nat) (q : ListQuery)
    (h : validateListQuery r = .ok q) :
    (r.page = none → q.page = 1) ∧
    (r.limit = none → q.limit = 10) ∧
    1 ≤ q.page ∧ 1 ≤ q.limit ∧ q.limit ≤ 100 ∧
    (listTasks s uid q).data =
      ((iSort (taskCmp q.sort_by q.sort_order)
          (s.tasks.filter (matchesFilters uid q))).drop
        ((q.page - 1) * q.limit)).take q.limit ∧
    (listTasks s uid q).data.length ≤ q.limit ∧
    (listTasks s uid q).pagination.total =
      (s.tasks.filter (matchesFilters uid q)).length ∧
    (∀ p' l', (listTasks s uid { q with page := p', limit := l' }).pagination.total =
      (listTasks s uid q).pagination.total) ∧
    (listTasks s uid q).pagination.pages =
      Nat.ceil (((listTasks s uid q).pagination.total : ℚ) / (q.limit : ℚ)) := by
  unfold validateListQuery at h
  dsimp only [] at h
  split at h
  · exact absurd h (by simp)
  · rename_i hcond
    push_neg at hcond
    simp only [Except.ok.injEq] at h
    subst h
    refine ⟨?_, ?_, ?_, ?_, ?_, rfl, ?_, rfl, fun p' l' => rfl, rfl⟩
    · intro hnone; simp [hnone]
    · intro hnone; simp [hnone]
    · exact hcond.1
    · exact hcond.2.1
    · exact hcond.2.2
    · exact List.length_take_le _ _

/-- C4 witness: the empty raw query validates to the defaults, and the
listing over the fixture store satisfies the pagination contract. -/
theorem c4_witness :
    (({} : RawQuery).page = none → ({} : ListQuery).page = 1) ∧
    (({} : RawQuery).limit = none → ({} : ListQuery).limit = 10) ∧
    1 ≤ ({} : ListQuery).page ∧ 1 ≤ ({} : ListQuery).limit ∧ ({} : ListQuery).limit ≤ 100 ∧
    (listTasks exStore 10 {}).data =
      ((iSort (taskCmp ({} : ListQuery).sort_by ({} : ListQuery).sort_order)
          (exStore.tasks.filter (matchesFilters 10 {}))).drop
        ((({} : ListQuery).page - 1) * ({} : ListQuery).limit)).take ({} : ListQuery).limit ∧
    (listTasks exStore 10 {}).data.length ≤ ({} : ListQuery).limit ∧
    (listTasks exStore 10 {}).pagination.total =
      (exStore.tasks.filter (matchesFilters 10 {})).length ∧
    (∀ p' l', (listTasks exStore 10 { ({} : ListQuery) with page := p', limit := l' }).pagination.total =
      (listTasks exStore 10 {}).pagination.total) ∧
    (listTasks exStore 10 {}).pagination.pages =
      Nat.ceil (((listTasks exStore 10 {}).pagination.total : ℚ) / (({} : ListQuery).limit : ℚ)) :=
  c4_thm {} exStore 10 {} rfl

/-- Sanity of the order model: the embedding's sort does produce a
key-sorted list — adjacent items non-decreasing for `asc`, non-increasing
for `desc` — which is the part of ORDER BY Postgres does guarantee. -/
theorem listTasks_sorted (s : Store) (uid : Nat) (q : ListQuery) :
    (q.sort_order = .asc →
      (listTasks s uid q).data.Chain' (fun t u => keyLe q.sort_by t u = true)) ∧
    (q.sort_order = .desc →
      (listTasks s uid q).data.Chain' (fun t u => keyLe q.sort_by u t = true)) := by
  have hpair : (iSort (taskCmp q.sort_by q.sort_order)
      (s.tasks.filter (matchesFilters uid q))).Pairwise
      (fun t u => taskCmp q.sort_by q.sort_order t u = true) :=
    pairwise_iSort _ (taskCmp_total q.sort_by q.sort_order)
      (taskCmp_trans q.sort_by q.sort_order) _
  have hsub : (listTasks s uid q).data.Sublist
      (iSort (taskCmp q.sort_by q.sort_order)
        (s.tasks.filter (matchesFilters uid q))) :=
    (List.take_sublist _ _).trans (List.drop_sublist _ _)
  have hdata : (listTasks s uid q).data.Pairwise
      (fun t u => taskCmp q.sort_by q.sort_order t u = true) :=
    hpair.sublist hsub
  constructor
  · intro ho
    rw [ho] at hdata
    exact hdata.chain'
  · intro ho
    rw [ho] at hdata
    exact hdata.chain'

/-- `Math.round(0 * 100) / 100 = 0`. -/
theorem round2_zero : round2 0 = 0 := by
  unfold round2 jsRound
  norm_num [Int.floor_eq_iff]

/-- C6: in the overview, `overdue_tasks` counts exactly the caller-visible
tasks with `due_date < now` and `status ≠ completed`, and
`completion_rate` is `completed / total * 100` rounded to two decimal
places, with 0 when the total is 0. -/
theorem c6_thm (now : Int) (s : Store) (uid : Nat) :
    (overview now s uid).overdue_tasks =
      s.tasks.countP (fun t =>
        visibleTo uid t && t.due_date.any (fun d => decide (d < now)) &&
          decide (t.status ≠ .completed)) ∧
    (overview now s uid).completion_rate =
      (if (overview now s uid).total_tasks = 0 then 0
       else round2 (((overview now s uid).completed_tasks : ℚ) /
         ((overview now s uid).total_tasks : ℚ) * 100)) := by
  constructor
  · show s.tasks.countP (fun t =>
        (match t.due_date with | some d => decide (d < now) | none => false)
        && decide (t.status ≠ .completed) && visibleTo uid t) = _
    apply List.countP_congr
    intro t _
    cases hd : t.due_date <;>
      simp [Option.any, hd, Bool.and_eq_true, decide_eq_true_iff] <;> tauto
  · have htot : (overview now s uid).total_tasks =
        s.tasks.countP (fun t => visibleTo uid t) := rfl
    have hcom : (overview now s uid).completed_tasks =
        s.tasks.countP (fun t => decide (t.status = .completed) && visibleTo uid t) := rfl
    have hrate : (overview now s uid).completion_rate =
        round2 (if 0 < s.tasks.countP (fun t => visibleTo uid t) then
          ((s.tasks.countP (fun t => decide (t.status = .completed) && visibleTo uid t) : ℚ) /
            (s.tasks.countP (fun t => visibleTo uid t) : ℚ)) * 100 else 0) := rfl
    rw [hrate, htot, hcom]
    by_cases h : s.tasks.countP (fun t => visibleTo uid t) = 0
    · rw [if_pos h, if_neg (by omega), round2_zero]
    · rw [if_neg h, if_pos (by omega)]

/-- The emitted completion-rate series is the reversal of the
newest-first bucket list, with one bucket per day `dayOf now - i`. -/
theorem completionRates_chart (now : Int) (daysAgo : Nat) (s : Store) (uid : Nat) :
    (completionRates now daysAgo s uid).daily_completions =
      ((List.range daysAgo).map (fun (i : Nat) =>
        (dayOf now - (i : Int),
         (completedInWindow now daysAgo s uid).countP
           (completedOn (dayOf now - (i : Int)))))).reverse := by
  show iSort (fun a b => decide (a.1 ≤ b.1))
      (completionBuckets now daysAgo (completedInWindow now daysAgo s uid)) = _
  unfold completionBuckets
  rw [List.map_congr_left (fun (i : Nat) _ => by simp only [dayOf_sub_days] :
      ∀ i ∈ List.range daysAgo,
        ((fun (i : Nat) =>
          (dayOf (now - (i : Int) * dayMs),
           (completedInWindow now daysAgo s uid).countP
             (completedOn (dayOf (now - (i : Int) * dayMs))))) i) =
        ((fun (i : Nat) =>
          (dayOf now - (i : Int),
           (completedInWindow now daysAgo s uid).countP
             (completedOn (dayOf now - (i : Int))))) i))]
  apply iSort_eq_reverse
  rw [List.pairwise_map]
  apply (List.pairwise_lt_range daysAgo).imp
  intro i j hij
  apply decide_eq_false
  simp only []
  omega

/-- C7: the completion-rate series emits exactly one bucket per calendar
day of the trailing window, in ascending date order (independent of the
order the tasks were retrieved in), and every emitted bucket's count is
the number of window-completed tasks whose `completed_at` date matches the
bucket's date (0 when none match). -/
theorem c7_thm (now : Int) (daysAgo : Nat) (s : Store) (uid : Nat) :
    (completionRates now daysAgo s uid).daily_completions.map Prod.fst =
      ((List.range daysAgo).map (fun (i : Nat) => dayOf now - (i : Int))).reverse ∧
    ((completionRates now daysAgo s uid).daily_completions.map Prod.fst).Chain' (· < ·) ∧
    (∀ p ∈ (completionRates now daysAgo s uid).daily_completions,
      p.2 = (completedInWindow now daysAgo s uid).countP (completedOn p.1)) := by
  have hc := completionRates_chart now daysAgo s uid
  refine ⟨?_, ?_, ?_⟩
  · rw [hc, List.map_reverse, List.map_map]
    rfl
  · rw [hc, List.map_reverse, List.map_map]
    apply List.Pairwise.chain'
    rw [List.pairwise_reverse, List.pairwise_map]
    apply (List.pairwise_lt_range daysAgo).imp
    intro i j hij
    show (dayOf now - (j : Int)) < dayOf now - (i : Int)
    omega
  · intro p hp
    rw [hc, List.mem_reverse] at hp
    obtain ⟨i, _, rfl⟩ := List.mem_map.mp hp
    rfl

/-- C7 witness: over the fixture store at noon of day 5 with a 2-day
window the buckets are days 4 and 5 in ascending order, and the day-4
bucket counts the matching completions. -/
theorem c7_witness :
    (completionRates exNow 2 exStoreLate 10).daily_completions.map Prod.fst =
      ((List.range 2).map (fun (i : Nat) => dayOf exNow - (i : Int))).reverse ∧
    ((completionRates exNow 2 exStoreLate 10).daily_completions.map Prod.fst).Chain' (· < ·) ∧
    ((4, 0) : Int × Nat).2 =
      (completedInWindow exNow 2 exStoreLate 10).countP (completedOn ((4, 0) : Int × Nat).1) :=
  ⟨(c7_thm exNow 2 exStoreLate 10).1,
   (c7_thm exNow 2 exStoreLate 10).2.1,
   (c7_thm exNow 2 exStoreLate 10).2.2 (4, 0) (by decide)⟩

/-- `reduce((acc, t) => acc + hours(t), 0)` sums the mapped values. -/
theorem foldl_add_map (f : α → ℚ) :
    ∀ (l : List α) (init : ℚ),
      l.foldl (fun acc t => acc + f t) init = init + (l.map f).sum := by
  intro l
  induction l with
  | nil => intro init; simp
  | cons x l ih =>
    intro init
    rw [List.foldl_cons, ih, List.map_cons, List.sum_cons]
    ring

/-- C8: when every task of the productivity window satisfies the
completion biconditional (`completed_at` set iff `status = completed`, the
state produced by the documented API), `average_completion_time_hours` is
the rounded mean of `(completed_at - created_at)` hours over the completed
tasks only, the divisor `max(completed, 1)` is never zero, and the value
is 0 when the window has no completed task. -/
theorem c8_thm (now : Int) (daysAgo : Nat) (s : Store) (uid : Nat)
    (hinv : ∀ t ∈ windowTasks now daysAgo s uid,
      (t.status = .completed ↔ t.completed_at.isSome = true)) :
    0 < Nat.max ((windowTasks now daysAgo s uid).countP
      (fun t => decide (t.status = .completed))) 1 ∧
    (productivity now daysAgo s uid).average_completion_time_hours =
      (if ((windowTasks now daysAgo s uid).filter
            (fun t => decide (t.status = .completed))).length = 0 then 0
       else round2
        ((((windowTasks now daysAgo s uid).filter
            (fun t => decide (t.status = .completed))).map completionHours).sum /
          (((windowTasks now daysAgo s uid).filter
            (fun t => decide (t.status = .completed))).length : ℚ))) := by
  constructor
  · exact Nat.lt_of_lt_of_le Nat.zero_lt_one (Nat.le_max_right _ _)
  · have havg : (productivity now daysAgo s uid).average_completion_time_hours =
        round2 (((windowTasks now daysAgo s uid).filter
            (fun t => t.completed_at.isSome)).foldl
            (fun acc t => acc + completionHours t) 0 /
          ((Nat.max ((windowTasks now daysAgo s uid).countP
            (fun t => decide (t.status = .completed))) 1 : Nat) : ℚ)) := rfl
    have hfeq : (windowTasks now daysAgo s uid).filter (fun t => t.completed_at.isSome) =
        (windowTasks now daysAgo s uid).filter (fun t => decide (t.status = .completed)) := by
      apply List.filter_congr
      intro t ht
      rw [Bool.eq_iff_iff, decide_eq_true_iff]
      exact (hinv t ht).symm
    have hcnt : (windowTasks now daysAgo s uid).countP
        (fun t => decide (t.status = .completed)) =
        ((windowTasks now daysAgo s uid).filter
          (fun t => decide (t.status = .completed))).length :=
      List.countP_eq_length_filter _ _
    rw [havg, hfeq, foldl_add_map, zero_add, hcnt]
    by_cases h : ((windowTasks now daysAgo s uid).filter
        (fun t => decide (t.status = .completed))).length = 0
    · rw [if_pos h, h]
      have hnil : (windowTasks now daysAgo s uid).filter
          (fun t => decide (t.status = .completed)) = [] :=
        List.length_eq_zero.mp h
      rw [hnil]
      simp only [List.map_nil, List.sum_nil]
      norm_num
      exact round2_zero
    · have hmax : Nat.max ((windowTasks now daysAgo s uid).filter
          (fun t => decide (t.status = .completed))).length 1 =
          ((windowTasks now daysAgo s uid).filter
            (fun t => decide (t.status = .completed))).length :=
        sup_eq_left.mpr (by omega)
      rw [if_neg h, hmax]

/-- C8 witness: the fixture productivity window of one completed and one
open task satisfies the biconditional hypothesis. -/
theorem c8_witness :
    0 < Nat.max ((windowTasks 100 1 exStoreProd 10).countP
      (fun t => decide (t.status = .completed))) 1 ∧
    (productivity 100 1 exStoreProd 10).average_completion_time_hours =
      (if ((windowTasks 100 1 exStoreProd 10).filter
            (fun t => decide (t.status = .completed))).length = 0 then 0
       else round2
        ((((windowTasks 100 1 exStoreProd 10).filter
            (fun t => decide (t.status = .completed))).map completionHours).sum /
          (((windowTasks 100 1 exStoreProd 10).filter
            (fun t => decide (t.status = .completed))).length : ℚ))) :=
  c8_thm 100 1 exStoreProd 10 (by decide)

/-- C10: in every completion-rates response the bucket counts sum to at
most `total_completed`; the gap is real — in the fixture, a task whose
`completed_at` lies inside the queried window but whose UTC date precedes
the oldest bucket date is counted in `total_completed` (= 1) while the
buckets sum to 0. -/
theorem c10_thm :
    (∀ (now : Int) (daysAgo : Nat) (s : Store) (uid : Nat),
      ((completionRates now daysAgo s uid).daily_completions.map Prod.snd).sum ≤
        (completionRates now daysAgo s uid).total_completed) ∧
    ((completionRates exNow 2 exStoreLate 10).daily_completions.map Prod.snd).sum = 0 ∧
    (completionRates exNow 2 exStoreLate 10).total_completed = 1 ∧
    (∃ t ∈ exStoreLate.tasks, t.status = .completed ∧
      ∃ c, t.completed_at = some c ∧ exNow - 2 * dayMs ≤ c ∧
        dayOf c < dayOf exNow - 1) := by
  refine ⟨?_, by rfl, by rfl, by decide⟩
  intro now daysAgo s uid
  have hc := completionRates_chart now daysAgo s uid
  have htot : (completionRates now daysAgo s uid).total_completed =
      (completedInWindow now daysAgo s uid).length := rfl
  rw [hc, htot, List.map_reverse, List.sum_reverse, List.map_map]
  have hmm : ((List.range daysAgo).map
      (Prod.snd ∘ fun (i : Nat) =>
        (dayOf now - (i : Int),
         (completedInWindow now daysAgo s uid).countP
           (completedOn (dayOf now - (i : Int)))))) =
      ((List.range daysAgo).map (fun (i : Nat) => dayOf now - (i : Int))).map
        (fun d => (completedInWindow now daysAgo s uid).countP (completedOn d)) := by
    rw [List.map_map]
    rfl
  rw [hmm]
  apply sum_map_countP_le
  · rw [List.pairwise_map]
    apply (List.pairwise_lt_range daysAgo).imp
    intro i j hij
    intro hcontra
    omega
  · intro x d d' hd hd'
    exact completedOn_unique x d d' hd hd'

end FounderArms
